import Mathlib

/-!
# wasm-fetch: a verification development

A shallow embedding of `fetch.go` and `opts.go` (package `fetch`): the option
mapping `mapOpts` / `mapHeaders` and the two-phase bridge `Fetch`.

* Go maps are association lists with unique keys (`AList`); a nil map or nil
  pointer or nil interface is `none`.
* `mapOpts` reads the request body, so it is embedded with explicit state
  passing: it returns the state of the body source afterwards together with
  the host calls it made.
* `Fetch` talks to the JavaScript host through callbacks and channels.  The
  host's behaviour during one call (how each of the two promises settles) is a
  parameter, and the run is recorded as the list of host calls made, the
  returned pair, and the state of the cancellation goroutine when `Fetch`
  returns.
-/

namespace WasmFetch

/-! ## Go values -/

abbrev Byte := UInt8

/-- Go `error` values: the ones built by `errors.New` and the ones readers return. -/
structure Error where
  message : String
  deriving DecidableEq, Repr

/-- Go `map[string]T`; `none` at the use site stands for the nil map. -/
abbrev GoMap (T : Type) := AList (fun _ : String => T)

/-- The `bytes.Buffer` of the standard library: `buf[off:]` is the unread part. -/
structure Buffer where
  buf : List Byte
  off : Nat
  deriving DecidableEq, Repr

/-- `(*bytes.Buffer).Bytes`: the unread portion; the read offset does not move. -/
def Buffer.Bytes (b : Buffer) : List Byte := b.buf.drop b.off

/-- `(*bytes.Buffer).Len`: the number of unread bytes. -/
def Buffer.Len (b : Buffer) : Nat := b.buf.length - b.off

/-- Any other `io.Reader` that produces finitely many bytes: successive `Read`
calls hand out `chunks` one by one with a nil error, and after the last chunk
`Read` returns `io.EOF` (`failure = none`) or the error `failure`.  `reads`
counts the `Read` calls made so far and `ended` counts those among them that
returned a non-nil error. -/
structure Reader where
  chunks : List (List Byte)
  failure : Option Error
  reads : Nat
  ended : Nat
  deriving DecidableEq, Repr

/-- What one `Read` call reports besides the bytes. -/
inductive ReadErr where
  | EOF
  | other (e : Error)
  deriving DecidableEq, Repr

/-- One call of `Read`. -/
def Reader.Read (r : Reader) : (List Byte × Option ReadErr) × Reader :=
  match r.chunks with
  | c :: cs => ((c, none), { r with chunks := cs, reads := r.reads + 1 })
  | [] =>
    match r.failure with
    | none => (([], some .EOF), { r with reads := r.reads + 1, ended := r.ended + 1 })
    | some e => (([], some (.other e)), { r with reads := r.reads + 1, ended := r.ended + 1 })

/-- The loop of `io.ReadAll`: call `Read` and append until it reports an error;
`io.EOF` is turned into a nil error. -/
def ReadAllLoop (r : Reader) (b : List Byte) : (List Byte × Option Error) × Reader :=
  match h : r.Read with
  | ((data, none), r1) => ReadAllLoop r1 (b ++ data)
  | ((data, some .EOF), r1) => ((b ++ data, none), r1)
  | ((data, some (.other e)), r1) => ((b ++ data, some e), r1)
termination_by r.chunks.length
decreasing_by
  unfold Reader.Read at h
  split at h
  · next c cs hc =>
    simp only [Prod.mk.injEq] at h
    rw [← h.2, hc]
    simp
  · split at h <;> simp at h

/-- The function `io.ReadAll`. -/
def ReadAll (r : Reader) : (List Byte × Option Error) × Reader := ReadAllLoop r []

/-- The value of the `Body io.Reader` field when it is not nil. -/
inductive Body where
  | buffer (v : Buffer)
  | reader (r : Reader)
  deriving DecidableEq, Repr

/-! ## Values handed to the host -/

/-- A Go value stored as `interface{}` inside the nested headers object. -/
inductive Prim where
  | str (s : String)
  | bool (b : Bool)
  deriving DecidableEq, Repr

/-- The values `mapOpts` and `Fetch` store in the `map[string]interface{}` that
becomes the second argument of the host `fetch`. -/
inductive Arg where
  | str (s : String)
  | bool (b : Bool)
  | object (m : GoMap Prim)
  | uint8Array (bytes : List Byte)
  | abortSignal
  deriving DecidableEq

/-- The callbacks `Fetch` creates with `js.FuncOf`. -/
inductive Handle where
  | success
  | failure
  | successBody
  | failureBody
  deriving DecidableEq, Repr

/-- Calls into the JavaScript host, in the order they are made. -/
inductive HostCall where
  | newUint8Array (len : Nat)
  | copyBytesToJS (src : List Byte)
  | newAbortController
  | funcOf (h : Handle)
  | release (h : Handle)
  | fetch (url : String) (args : GoMap Arg)
  | arrayBuffer
  | wrapUint8Array
  | copyBytesToGo
  | abort
  deriving DecidableEq

/-- The functions `js.CopyBytesToJS` and `js.CopyBytesToGo`: copy
`min(len(dst), len(src))` bytes from the start of `src` over the start of `dst`. -/
def CopyBytes (dst src : List Byte) : List Byte :=
  src.take (min dst.length src.length) ++ dst.drop (min dst.length src.length)

/-! ## opts.go -/

/-- When the caller's `context.Context` is cancelled, relative to the call. -/
inductive Context where
  | duringMetadata
  | duringBody
  | notDuringCall
  deriving DecidableEq, Repr

/-- The struct `Opts`. -/
structure Opts where
  Method : String := ""
  Headers : Option (GoMap String) := none
  Body : Option Body := none
  Mode : String := ""
  Credentials : String := ""
  Cache : String := ""
  Redirect : String := ""
  Referrer : String := ""
  ReferrerPolicy : String := ""
  Integrity : String := ""
  KeepAlive : Option Bool := none
  Signal : Option Context := none

/-! ## fetch.go: option mapping -/

/-- The function `mapHeaders`: `for k, v := range mp { newMap[k] = v }`. -/
def mapHeaders (mp : GoMap String) : GoMap Prim :=
  mp.entries.foldl (fun newMap kv => newMap.insert kv.1 (Prim.str kv.2)) ∅

/-- The outcome of `mapOpts`: the returned pair, the body source afterwards and
the host calls made. -/
structure MapOptsRun where
  result : Except Error (GoMap Arg)
  body : Option Body
  trace : List HostCall

/-- One statement `if s != "" { mp[key] = s }` of `mapOpts`. -/
def setString (mp : GoMap Arg) (key s : String) : GoMap Arg :=
  if s ≠ "" then mp.insert key (.str s) else mp

/-- The statement `if opts.Headers != nil { mp["headers"] = mapHeaders(opts.Headers) }`. -/
def setHeaders (mp : GoMap Arg) (headers : Option (GoMap String)) : GoMap Arg :=
  match headers with
  | some h => mp.insert "headers" (.object (mapHeaders h))
  | none => mp

/-- The statement `if opts.KeepAlive != nil { mp["keepalive"] = *opts.KeepAlive }`. -/
def setKeepAlive (mp : GoMap Arg) (keepAlive : Option Bool) : GoMap Arg :=
  match keepAlive with
  | some b => mp.insert "keepalive" (.bool b)
  | none => mp

/-- The function `mapOpts`. -/
def mapOpts (opts : Opts) : MapOptsRun :=
  let mp : GoMap Arg := ∅
  let mp := setString mp "method" opts.Method
  let mp := setHeaders mp opts.Headers
  let mp := setString mp "mode" opts.Mode
  let mp := setString mp "credentials" opts.Credentials
  let mp := setString mp "cache" opts.Cache
  let mp := setString mp "redirect" opts.Redirect
  let mp := setString mp "referrer" opts.Referrer
  let mp := setString mp "referrerPolicy" opts.ReferrerPolicy
  let mp := setString mp "integrity" opts.Integrity
  let mp := setKeepAlive mp opts.KeepAlive
  match opts.Body with
  | none => { result := .ok mp, body := none, trace := [] }
  | some body =>
    -- switch v := opts.Body.(type): case *bytes.Buffer: v.Bytes(); default: io.ReadAll
    let read : (List Byte × Option Error) × Body :=
      match body with
      | .buffer v => ((v.Bytes, none), .buffer v)
      | .reader r => ((ReadAll r).1, .reader (ReadAll r).2)
    match read.1.2 with
    | some err =>
      -- if err != nil: return nil, err
      { result := .error err, body := some read.2, trace := [] }
    | none =>
      -- jsbody := Uint8Array.New(len(bts)); js.CopyBytesToJS(jsbody, bts); mp["body"] = jsbody
      let bts := read.1.1
      let jsbody := CopyBytes (List.replicate bts.length 0) bts
      { result := .ok (mp.insert "body" (.uint8Array jsbody))
        body := some read.2
        trace := [.newUint8Array bts.length, .copyBytesToJS bts] }

/-! ## The response side -/

/-- Modelled from the spec: the type `Header` of the repository is not among the
sources at hand.  It is the "multi-valued header mapping (keys, each mapping to
a list of values -- supports repeated headers)" of the data model, a
`map[string][]string`. -/
abbrev Header := GoMap (List String)

/-- Modelled from the spec: the method `Header.Add` of the repository is not
among the sources at hand.  It is the "add" of the "header-mapping helper
supporting add/set/get-by-key semantics": the value joins the end of the list
kept for the key, which is how repeated headers are supported. -/
def Header.Add (h : Header) (key value : String) : Header :=
  h.insert key ((h.lookup key).getD [] ++ [value])

/-- Modelled from the spec: the struct `Response` of the repository is not among
the sources at hand.  Its fields are the ones `Fetch` assigns, with the types
of the data model: headers, success flag, redirect flag, numeric status code,
status text, type, final URL, body-consumed flag and the raw body bytes. -/
structure Response where
  Headers : Header := ∅
  OK : Bool := false
  Redirected : Bool := false
  Status : Int := 0
  StatusText : String := ""
  Type_ : String := ""
  URL : String := ""
  BodyUsed : Bool := false
  Body : List Byte := []
  deriving DecidableEq

/-- How a host promise settles; `pending` is a promise that never settles. -/
inductive Settled (α : Type) where
  | fulfilled (value : α)
  | rejected (message : String)
  | pending
  deriving DecidableEq

/-- The host `Response` object the fetch promise is fulfilled with: the pairs
its `headers.entries()` iterator yields, its properties, and how the promise
returned by its `arrayBuffer()` method settles. -/
structure HostResponse where
  entries : List (String × String)
  ok : Bool
  redirected : Bool
  status : Int
  statusText : String
  type : String
  url : String
  bodyUsed : Bool
  arrayBuffer : Settled (List Byte)
  deriving DecidableEq

/-- The host during one call: how the promise returned by `fetch` settles. -/
structure Host where
  fetch : Settled HostResponse

/-- The local struct `fetchResponse` sent over the channel `ch`. -/
structure fetchResponse where
  r : Option Response
  b : Option HostResponse
  e : Option Error

/-- The function `errors.New`: never nil, whatever the text. -/
def errorsNew (text : String) : Option Error := some ⟨text⟩

/-- The callback `success`: the value it sends on `ch`. -/
def success (resp : HostResponse) : fetchResponse :=
  let headers : Header := resp.entries.foldl (fun h pair => h.Add pair.1 pair.2) ∅
  { r := some
      { Headers := headers
        OK := resp.ok
        Redirected := resp.redirected
        Status := resp.status
        StatusText := resp.statusText
        Type_ := resp.type
        URL := resp.url
        BodyUsed := resp.bodyUsed }
    b := some resp
    e := none }

/-- The callback `failure`: the value it sends on `ch` (it sends on `done` first). -/
def failure (message : String) : fetchResponse :=
  { r := none, b := none, e := errorsNew message }

/-- The callback `successBody`: it fills `r.r.Body` and sends `r` itself on `ch`. -/
def successBody (r : fetchResponse) (buffer : List Byte) : fetchResponse :=
  { r with
    r := r.r.map fun resp =>
      { resp with Body := CopyBytes (List.replicate buffer.length 0) buffer } }

/-- The callback `failureBody`: the value it sends on `ch`. -/
def failureBody (message : String) : fetchResponse :=
  { r := none, b := none, e := errorsNew message }

/-! ## fetch.go: the bridge -/

/-- The goroutine started when `opts.Signal` is set: it waits in a `select` for
the caller's signal or for a value on `done`. -/
inductive Watcher where
  | absent
  | waiting
  | aborted
  | stopped
  deriving DecidableEq, Repr

/-- The caller's signal fires (when `fires` holds): a goroutine still waiting in
the `select` takes the `opts.Signal.Done()` case and calls `abort`. -/
def signalFires (fires : Bool) (w : Watcher) : Watcher × List HostCall :=
  if fires then
    match w with
    | .waiting => (.aborted, [.abort])
    | other => (other, [])
  else (w, [])

/-- The send `done <- struct{}{}` on the channel of capacity 1 holding `n` values:
a goroutine waiting in the `select` receives the value and ends, otherwise
the value stays in the buffer. -/
def sendDone (w : Watcher) (n : Nat) : Watcher × Nat :=
  match w with
  | .waiting => (.stopped, n)
  | other => (other, n + 1)

/-- One run of `Fetch`: the returned pair (`none` when `Fetch` never returns
because a promise never settles), the host calls made up to the return, the
state of the signal goroutine and of the `done` buffer at that point, and the
body source afterwards. -/
structure FetchRun where
  ret : Option (Option Response × Option Error)
  trace : List HostCall
  watcher : Watcher
  done : Nat
  body : Option Body

/-- The function `Fetch`.  The callbacks run when the host settles the promise
they are attached to; the blocking receives `<-ch` return what the callback that
ran has sent. -/
def Fetch (host : Host) (url : String) (opts : Opts) : FetchRun :=
  -- optsMap, err := mapOpts(opts)
  let m := mapOpts opts
  match m.result with
  | .error err =>
    -- if err != nil: return nil, err
    { ret := some (none, some err), trace := m.trace, watcher := .absent, done := 0
      body := m.body }
  | .ok optsMap =>
    -- if opts.Signal != nil: new AbortController, optsMap["signal"] = signal, go func() select
    let wired : GoMap Arg × List HostCall × Watcher :=
      match opts.Signal with
      | none => (optsMap, [], .absent)
      | some _ => (optsMap.insert "signal" .abortSignal, [.newAbortController], .waiting)
    -- success := js.FuncOf(..); failure := js.FuncOf(..); go fetch(url, optsMap).then.catch
    let t1 := m.trace ++ wired.2.1 ++ [.funcOf .success, .funcOf .failure, .fetch url wired.1]
    let c1 := signalFires (decide (opts.Signal = some .duringMetadata)) wired.2.2
    -- r := <-ch; only `failure` sends on `done` before it sends on `ch`
    let first : Option (fetchResponse × Watcher × Nat) :=
      match host.fetch with
      | .pending => none
      | .fulfilled resp => some (success resp, c1.1, 0)
      | .rejected message => some (failure message, sendDone c1.1 0)
    match first with
    | none => { ret := none, trace := t1 ++ c1.2, watcher := c1.1, done := 0, body := m.body }
    | some (r, w1, d1) =>
      match r.e with
      | some e =>
        -- if r.e != nil: return nil, r.e; the deferred releases run last in, first out
        { ret := some (none, some e)
          trace := t1 ++ c1.2 ++ [.release .failure, .release .success]
          watcher := w1, done := d1, body := m.body }
      | none =>
        match r.b with
        | none =>
          -- a call on the zero js.Value does not return; only `failure` leaves `b` unset
          { ret := none, trace := t1 ++ c1.2, watcher := w1, done := d1, body := m.body }
        | some b =>
          -- successBody := js.FuncOf(..); failureBody := js.FuncOf(..);
          -- go r.b.arrayBuffer().then(successBody, failureBody)
          let t2 := t1 ++ c1.2 ++ [.funcOf .successBody, .funcOf .failureBody, .arrayBuffer]
          let c2 := signalFires (decide (opts.Signal = some .duringBody)) w1
          -- r = <-ch; neither body callback sends on `done`
          let second : Option (fetchResponse × List HostCall) :=
            match b.arrayBuffer with
            | .pending => none
            | .fulfilled buffer => some (successBody r buffer, [.wrapUint8Array, .copyBytesToGo])
            | .rejected message => some (failureBody message, [])
          match second with
          | none => { ret := none, trace := t2 ++ c2.2, watcher := c2.1, done := d1, body := m.body }
          | some (r2, t3) =>
            -- return r.r, r.e; the four deferred releases run last in, first out
            { ret := some (r2.r, r2.e)
              trace := t2 ++ c2.2 ++ t3 ++
                [.release .failureBody, .release .successBody, .release .failure,
                  .release .success]
              watcher := c2.1, done := d1, body := m.body }

/-- The caller's signal fires after `Fetch` has returned: the host calls this
causes.  A goroutine still waiting in the `select` calls `abort`. -/
def lateCancel (run : FetchRun) : List HostCall :=
  (signalFires true run.watcher).2

/-! ## Vocabulary of the statements -/

/-- The state `io.ReadAll` leaves a reader in: every chunk handed out, one more
`Read` made, which reported the end (or the failure). -/
def Reader.drained (r : Reader) : Reader :=
  { chunks := [], failure := r.failure, reads := r.reads + r.chunks.length + 1
    ended := r.ended + 1 }

/-- The values a list of header pairs carries for one key, in the order of the list. -/
def valuesFor (key : String) (entries : List (String × String)) : List String :=
  entries.filterMap fun pair => if pair.1 = key then some pair.2 else none

/-- The keys `mapOpts` can store. -/
def optionKeys : List String :=
  ["method", "headers", "mode", "credentials", "cache", "redirect", "referrer",
    "referrerPolicy", "integrity", "keepalive", "body"]

/-- The map `mapOpts` has built when it reaches the statement `if opts.Body != nil`. -/
def fieldsOf (opts : Opts) : GoMap Arg :=
  setKeepAlive
    (setString
      (setString
        (setString
          (setString
            (setString
              (setString
                (setString (setHeaders (setString ∅ "method" opts.Method) opts.Headers)
                  "mode" opts.Mode)
                "credentials" opts.Credentials)
              "cache" opts.Cache)
            "redirect" opts.Redirect)
          "referrer" opts.Referrer)
        "referrerPolicy" opts.ReferrerPolicy)
      "integrity" opts.Integrity)
    opts.KeepAlive

/-- The bytes a body source still has to give. -/
def Body.contents : Body → List Byte
  | .buffer v => v.Bytes
  | .reader r => r.chunks.flatten

/-- The source does not fail: a buffer never does, a reader ends with `io.EOF`. -/
def Body.succeeds : Body → Prop
  | .buffer _ => True
  | .reader r => r.failure = none

instance Body.succeedsDecidable (b : Body) : Decidable b.succeeds :=
  match b with
  | .buffer _ => isTrue trivial
  | .reader r => inferInstanceAs (Decidable (r.failure = none))

/-- Starting from `before`, the source has been read to completion exactly once
when it is in state `after`: nothing is left unread, and for a reader the end
has been reported by exactly one more `Read`. -/
def Body.readToCompletionOnce (before after : Body) : Prop :=
  match before, after with
  | .buffer _, .buffer v1 => v1.Len = 0
  | .reader r, .reader r1 => r1.chunks = [] ∧ r1.ended = r.ended + 1
  | _, _ => False

instance Body.readToCompletionOnceDecidable (before after : Body) :
    Decidable (Body.readToCompletionOnce before after) :=
  match before, after with
  | .buffer _, .buffer v1 => inferInstanceAs (Decidable (v1.Len = 0))
  | .reader r, .reader r1 =>
    inferInstanceAs (Decidable (r1.chunks = [] ∧ r1.ended = r.ended + 1))
  | .buffer _, .reader _ => isFalse id
  | .reader _, .buffer _ => isFalse id

/-- The handles registered with `js.FuncOf`, in order. -/
def registered (trace : List HostCall) : List Handle :=
  trace.filterMap fun c => match c with
    | .funcOf h => some h
    | _ => none

/-- The handles released with `Release`, in order. -/
def released (trace : List HostCall) : List Handle :=
  trace.filterMap fun c => match c with
    | .release h => some h
    | _ => none

/-! ## Concrete inputs -/

/-- The host response of the ping scenario: status 200, one header, body "pong". -/
def pingResp : HostResponse :=
  { entries := [("content-type", "text/plain")], ok := true, redirected := false, status := 200
    statusText := "OK", type := "basic", url := "/api/ping", bodyUsed := false
    arrayBuffer := .fulfilled [112, 111, 110, 103] }

/-- The same response when reading its body fails. -/
def brokenResp : HostResponse :=
  { pingResp with arrayBuffer := .rejected "body stream already read" }

/-- The descriptor `{Method: "GET"}`. -/
def getOpts : Opts := { Method := "GET" }

/-- The descriptor `{Method: "GET", Signal: ctx}` for a context that is not
cancelled while the call runs. -/
def getWithSignal : Opts := { Method := "GET", Signal := some .notDuringCall }

/-- The buffer `bytes.NewBufferString("hi")`. -/
def hiBuffer : Buffer := { buf := [104, 105], off := 0 }

/-- A reader that hands out "h", then "i", then `io.EOF`. -/
def hiReader : Reader := { chunks := [[104], [105]], failure := none, reads := 0, ended := 0 }

/-- A reader that hands out "h" and then fails. -/
def brokenReader : Reader :=
  { chunks := [[104]], failure := some ⟨"unexpected EOF"⟩, reads := 0, ended := 0 }

/-- The descriptor `{Method: "POST", Body: bytes.NewBufferString("hi")}` with a
header and an explicit `KeepAlive` of false. -/
def postOpts : Opts :=
  { Method := "POST"
    Headers := some ((∅ : GoMap String).insert "X-Token" "abc")
    Body := some (.buffer hiBuffer)
    KeepAlive := some false }

/-- The argument map `mapOpts` builds for `postOpts`. -/
def postArgs : GoMap Arg :=
  (((((∅ : GoMap Arg).insert "method" (.str "POST")).insert "headers"
    (.object ((∅ : GoMap Prim).insert "X-Token" (.str "abc")))).insert "keepalive"
    (.bool false)).insert "body" (.uint8Array [104, 105]))

/-- The descriptor `{Method: "POST", Body: r}` for the reader `hiReader`. -/
def readerOpts : Opts := { Method := "POST", Body := some (.reader hiReader) }

/-- The descriptor `{Method: "POST", Body: r}` for the reader `brokenReader`. -/
def brokenOpts : Opts := { Method := "POST", Body := some (.reader brokenReader) }

/-! ## Auxiliary facts -/

theorem CopyBytes_replicate (b : List Byte) :
    CopyBytes (List.replicate b.length 0) b = b := by
  simp [CopyBytes]

theorem lookup_setString (mp : GoMap Arg) (key s k : String) :
    AList.lookup k (setString mp key s) =
      if k = key ∧ s ≠ "" then some (.str s) else AList.lookup k mp := by
  unfold setString
  by_cases hs : s = "" <;> by_cases hk : k = key
  · simp [hs]
  · simp [hs]
  · subst hk; simp [hs]
  · simp [hs, hk, AList.lookup_insert_ne hk]

theorem lookup_setHeaders (mp : GoMap Arg) (headers : Option (GoMap String)) (k : String) :
    AList.lookup k (setHeaders mp headers) =
      if k = "headers" ∧ headers.isSome then headers.map (fun h => .object (mapHeaders h))
      else AList.lookup k mp := by
  unfold setHeaders
  cases headers with
  | none => simp
  | some h =>
    by_cases hk : k = "headers"
    · subst hk; simp
    · simp [hk, AList.lookup_insert_ne hk]

theorem lookup_setKeepAlive (mp : GoMap Arg) (keepAlive : Option Bool) (k : String) :
    AList.lookup k (setKeepAlive mp keepAlive) =
      if k = "keepalive" ∧ keepAlive.isSome then keepAlive.map Arg.bool
      else AList.lookup k mp := by
  unfold setKeepAlive
  cases keepAlive with
  | none => simp
  | some b =>
    by_cases hk : k = "keepalive"
    · subst hk; simp
    · simp [hk, AList.lookup_insert_ne hk]

theorem ReadAllLoop_eq (r : Reader) (b : List Byte) :
    ReadAllLoop r b = ((b ++ r.chunks.flatten, r.failure), r.drained) := by
  obtain ⟨chunks, failure, reads, ended⟩ := r
  induction chunks generalizing b reads with
  | nil =>
    rw [ReadAllLoop]
    cases failure <;> simp [Reader.Read, Reader.drained]
  | cons c cs ih =>
    rw [ReadAllLoop]
    simp only [Reader.Read]
    rw [ih]
    simp [Reader.drained]
    omega

theorem ReadAll_eq (r : Reader) : ReadAll r = ((r.chunks.flatten, r.failure), r.drained) := by
  simp [ReadAll, ReadAllLoop_eq]

theorem foldl_insert_lookup (l : List (Sigma fun _ : String => String)) (hl : l.NodupKeys)
    (init : GoMap Prim) (k : String) :
    AList.lookup k (l.foldl (fun newMap kv => newMap.insert kv.1 (Prim.str kv.2)) init) =
      match List.dlookup k l with
      | some v => some (Prim.str v)
      | none => AList.lookup k init := by
  induction l generalizing init with
  | nil => simp
  | cons a l ih =>
    obtain ⟨ha, hl1⟩ := List.nodupKeys_cons.mp hl
    rw [List.foldl_cons, ih hl1]
    obtain ⟨ak, av⟩ := a
    by_cases hk : k = ak
    · subst hk
      have hnone : List.dlookup k l = none := List.dlookup_eq_none.mpr ha
      simp [hnone]
    · rw [List.dlookup_cons_ne l ⟨ak, av⟩ hk]
      cases List.dlookup k l with
      | none => simp [AList.lookup_insert_ne hk]
      | some v => simp

theorem mapHeaders_lookup (mp : GoMap String) (k : String) :
    AList.lookup k (mapHeaders mp) = (AList.lookup k mp).map Prim.str := by
  unfold mapHeaders
  rw [foldl_insert_lookup mp.entries mp.nodupKeys]
  simp only [AList.lookup, AList.lookup_empty]
  cases List.dlookup k mp.entries <;> simp

theorem foldl_Add_lookup (entries : List (String × String)) (init : Header) (k : String) :
    ((entries.foldl (fun h pair => h.Add pair.1 pair.2) init).lookup k).getD [] =
      (init.lookup k).getD [] ++ valuesFor k entries := by
  induction entries generalizing init with
  | nil => simp [valuesFor]
  | cons p ps ih =>
    rw [List.foldl_cons, ih]
    by_cases hk : p.1 = k
    · subst hk
      simp [Header.Add, valuesFor, List.filterMap_cons]
    · have hk1 : k ≠ p.1 := fun h => hk h.symm
      simp [Header.Add, valuesFor, List.filterMap_cons, hk, AList.lookup_insert_ne hk1]

theorem foldl_Add_mem (entries : List (String × String)) (init : Header) (k : String) :
    k ∈ entries.foldl (fun h pair => h.Add pair.1 pair.2) init ↔
      k ∈ init ∨ valuesFor k entries ≠ [] := by
  induction entries generalizing init with
  | nil => simp [valuesFor]
  | cons p ps ih =>
    rw [List.foldl_cons, ih]
    by_cases hk : p.1 = k
    · subst hk
      simp [Header.Add, valuesFor, List.filterMap_cons]
    · have hk1 : k ≠ p.1 := fun h => hk h.symm
      simp [Header.Add, valuesFor, List.filterMap_cons, hk, hk1]

theorem foldl_Add_empty_lookup (entries : List (String × String)) (k : String) :
    (entries.foldl (fun h pair => h.Add pair.1 pair.2) (∅ : Header)).lookup k =
      if valuesFor k entries = [] then none else some (valuesFor k entries) := by
  have hget := foldl_Add_lookup entries ∅ k
  have hmem := foldl_Add_mem entries ∅ k
  rw [← AList.lookup_isSome] at hmem
  cases hl : (entries.foldl (fun h pair => h.Add pair.1 pair.2) (∅ : Header)).lookup k with
  | none =>
    rw [hl] at hmem
    by_cases hv : valuesFor k entries = []
    · simp [hv]
    · exact absurd (hmem.mpr (Or.inr hv)) (by simp)
  | some l =>
    rw [hl] at hmem hget
    have hv : valuesFor k entries ≠ [] := by
      rcases hmem.mp (by simp) with h | h
      · exact absurd h (by simp)
      · exact h
    simp at hget
    simp [hv, hget]

theorem mapOpts_no_body (opts : Opts) (hB : opts.Body = none) :
    mapOpts opts = { result := .ok (fieldsOf opts), body := none, trace := [] } := by
  unfold mapOpts
  simp only [hB]
  rfl

theorem mapOpts_buffer (opts : Opts) (v : Buffer) (hB : opts.Body = some (.buffer v)) :
    mapOpts opts =
      { result := .ok ((fieldsOf opts).insert "body" (.uint8Array v.Bytes))
        body := some (.buffer v)
        trace := [.newUint8Array v.Bytes.length, .copyBytesToJS v.Bytes] } := by
  unfold mapOpts
  simp only [hB, CopyBytes_replicate]
  rfl

theorem mapOpts_reader_ok (opts : Opts) (r : Reader) (hB : opts.Body = some (.reader r))
    (hf : r.failure = none) :
    mapOpts opts =
      { result := .ok ((fieldsOf opts).insert "body" (.uint8Array r.chunks.flatten))
        body := some (.reader r.drained)
        trace := [.newUint8Array r.chunks.flatten.length, .copyBytesToJS r.chunks.flatten] } := by
  unfold mapOpts
  simp only [hB, ReadAll_eq, hf, CopyBytes_replicate]
  rfl

theorem mapOpts_reader_error (opts : Opts) (r : Reader) (e : Error)
    (hB : opts.Body = some (.reader r)) (hf : r.failure = some e) :
    mapOpts opts =
      { result := .error e, body := some (.reader r.drained), trace := [] } := by
  unfold mapOpts
  simp only [hB, ReadAll_eq, hf]

theorem lookup_fieldsOf (opts : Opts) (k : String) :
    AList.lookup k (fieldsOf opts) =
      if k = "keepalive" ∧ opts.KeepAlive.isSome then opts.KeepAlive.map Arg.bool
      else if k = "integrity" ∧ opts.Integrity ≠ "" then some (.str opts.Integrity)
      else if k = "referrerPolicy" ∧ opts.ReferrerPolicy ≠ "" then
        some (.str opts.ReferrerPolicy)
      else if k = "referrer" ∧ opts.Referrer ≠ "" then some (.str opts.Referrer)
      else if k = "redirect" ∧ opts.Redirect ≠ "" then some (.str opts.Redirect)
      else if k = "cache" ∧ opts.Cache ≠ "" then some (.str opts.Cache)
      else if k = "credentials" ∧ opts.Credentials ≠ "" then some (.str opts.Credentials)
      else if k = "mode" ∧ opts.Mode ≠ "" then some (.str opts.Mode)
      else if k = "headers" ∧ opts.Headers.isSome then
        opts.Headers.map (fun h => .object (mapHeaders h))
      else if k = "method" ∧ opts.Method ≠ "" then some (.str opts.Method)
      else none := by
  simp only [fieldsOf, lookup_setKeepAlive, lookup_setString, lookup_setHeaders,
    AList.lookup_empty]

theorem mapOpts_ok_cases (opts : Opts) (mp : GoMap Arg)
    (h : (mapOpts opts).result = .ok mp) :
    (opts.Body = none ∧ mp = fieldsOf opts) ∨
    (opts.Body ≠ none ∧ ∃ bts, mp = (fieldsOf opts).insert "body" (.uint8Array bts)) := by
  cases hB : opts.Body with
  | none =>
    rw [mapOpts_no_body opts hB] at h
    simp only [Except.ok.injEq] at h
    exact Or.inl ⟨rfl, h.symm⟩
  | some body =>
    refine Or.inr ⟨by simp, ?_⟩
    cases body with
    | buffer v =>
      rw [mapOpts_buffer opts v hB] at h
      simp only [Except.ok.injEq] at h
      exact ⟨_, h.symm⟩
    | reader r =>
      cases hf : r.failure with
      | none =>
        rw [mapOpts_reader_ok opts r hB hf] at h
        simp only [Except.ok.injEq] at h
        exact ⟨_, h.symm⟩
      | some e =>
        rw [mapOpts_reader_error opts r e hB hf] at h
        simp at h

/-! ## The claims -/

/-- C1. When `mapOpts` returns an argument map, the map holds exactly the fields
the caller set: each of the eight string keys is present iff its field is not
the empty string and then maps to that string, `"headers"` is present iff
`Headers` is not nil, `"keepalive"` is present iff `KeepAlive` is not nil and
then maps to the boolean pointed to (an explicit `false` included), `"body"` is
present iff `Body` is not nil, and no other key is present; the empty
descriptor gives the empty map and no error. -/
theorem mapOpts_only_set_fields (opts : Opts) (mp : GoMap Arg)
    (h : (mapOpts opts).result = .ok mp) :
    (mp.lookup "method" = if opts.Method = "" then none else some (.str opts.Method)) ∧
    (mp.lookup "mode" = if opts.Mode = "" then none else some (.str opts.Mode)) ∧
    (mp.lookup "credentials" =
      if opts.Credentials = "" then none else some (.str opts.Credentials)) ∧
    (mp.lookup "cache" = if opts.Cache = "" then none else some (.str opts.Cache)) ∧
    (mp.lookup "redirect" = if opts.Redirect = "" then none else some (.str opts.Redirect)) ∧
    (mp.lookup "referrer" = if opts.Referrer = "" then none else some (.str opts.Referrer)) ∧
    (mp.lookup "referrerPolicy" =
      if opts.ReferrerPolicy = "" then none else some (.str opts.ReferrerPolicy)) ∧
    (mp.lookup "integrity" =
      if opts.Integrity = "" then none else some (.str opts.Integrity)) ∧
    ("headers" ∈ mp ↔ opts.Headers ≠ none) ∧
    (mp.lookup "keepalive" = opts.KeepAlive.map Arg.bool) ∧
    ("body" ∈ mp ↔ opts.Body ≠ none) ∧
    (∀ k, k ∈ mp → k ∈ optionKeys) ∧
    (mapOpts {}).result = .ok ∅ := by
  have hkeys : ∀ k, k ∉ optionKeys → AList.lookup k (fieldsOf opts) = none := by
    intro k hk
    simp only [optionKeys, List.mem_cons, List.mem_singleton, not_or, List.not_mem_nil,
      or_false] at hk
    rw [lookup_fieldsOf]
    simp [hk]
  have hbody : AList.lookup "body" (fieldsOf opts) = none := by
    rw [lookup_fieldsOf]; simp
  have hempty : (mapOpts {}).result = .ok ∅ := by
    rw [mapOpts_no_body _ rfl]
    rfl
  rcases mapOpts_ok_cases opts mp h with ⟨hB, rfl⟩ | ⟨hB, bts, rfl⟩
  · refine ⟨?_, ?_, ?_, ?_, ?_, ?_, ?_, ?_, ?_, ?_, ?_, ?_, hempty⟩
    · rw [lookup_fieldsOf]; by_cases hs : opts.Method = "" <;> simp [hs]
    · rw [lookup_fieldsOf]; by_cases hs : opts.Mode = "" <;> simp [hs]
    · rw [lookup_fieldsOf]; by_cases hs : opts.Credentials = "" <;> simp [hs]
    · rw [lookup_fieldsOf]; by_cases hs : opts.Cache = "" <;> simp [hs]
    · rw [lookup_fieldsOf]; by_cases hs : opts.Redirect = "" <;> simp [hs]
    · rw [lookup_fieldsOf]; by_cases hs : opts.Referrer = "" <;> simp [hs]
    · rw [lookup_fieldsOf]; by_cases hs : opts.ReferrerPolicy = "" <;> simp [hs]
    · rw [lookup_fieldsOf]; by_cases hs : opts.Integrity = "" <;> simp [hs]
    · rw [← AList.lookup_isSome, lookup_fieldsOf]
      cases opts.Headers <;> simp
    · rw [lookup_fieldsOf]; cases opts.KeepAlive <;> simp
    · rw [← AList.lookup_isSome, hbody]; simp [hB]
    · intro k hk
      by_contra hn
      rw [← AList.lookup_isSome, hkeys k hn] at hk
      simp at hk
  · have hne : ∀ k, k ≠ "body" →
        AList.lookup k ((fieldsOf opts).insert "body" (.uint8Array bts)) =
          AList.lookup k (fieldsOf opts) := fun k hk => AList.lookup_insert_ne hk
    refine ⟨?_, ?_, ?_, ?_, ?_, ?_, ?_, ?_, ?_, ?_, ?_, ?_, hempty⟩
    · rw [hne _ (by decide), lookup_fieldsOf]; by_cases hs : opts.Method = "" <;> simp [hs]
    · rw [hne _ (by decide), lookup_fieldsOf]; by_cases hs : opts.Mode = "" <;> simp [hs]
    · rw [hne _ (by decide), lookup_fieldsOf]
      by_cases hs : opts.Credentials = "" <;> simp [hs]
    · rw [hne _ (by decide), lookup_fieldsOf]; by_cases hs : opts.Cache = "" <;> simp [hs]
    · rw [hne _ (by decide), lookup_fieldsOf]; by_cases hs : opts.Redirect = "" <;> simp [hs]
    · rw [hne _ (by decide), lookup_fieldsOf]; by_cases hs : opts.Referrer = "" <;> simp [hs]
    · rw [hne _ (by decide), lookup_fieldsOf]
      by_cases hs : opts.ReferrerPolicy = "" <;> simp [hs]
    · rw [hne _ (by decide), lookup_fieldsOf]
      by_cases hs : opts.Integrity = "" <;> simp [hs]
    · rw [← AList.lookup_isSome, hne _ (by decide), lookup_fieldsOf]
      cases opts.Headers <;> simp
    · rw [hne _ (by decide), lookup_fieldsOf]; cases opts.KeepAlive <;> simp
    · simp [hB]
    · intro k hk
      by_cases hkb : k = "body"
      · subst hkb; simp [optionKeys]
      · by_contra hn
        rw [← AList.lookup_isSome, hne k hkb, hkeys k hn] at hk
        simp at hk

/-- C2. When `Headers` is set and `mapOpts` returns an argument map, its
`"headers"` entry is an object that equals the supplied mapping: every key maps
to the same string as in `Headers` (keys compared as they are), and a key is
present in the object iff it is present in `Headers`. -/
theorem mapOpts_headers_exact (opts : Opts) (hs : GoMap String) (mp : GoMap Arg)
    (hH : opts.Headers = some hs) (h : (mapOpts opts).result = .ok mp) :
    mp.lookup "headers" = some (.object (mapHeaders hs)) ∧
    (∀ k, (mapHeaders hs).lookup k = (hs.lookup k).map Prim.str) ∧
    (∀ k, k ∈ mapHeaders hs ↔ k ∈ hs) := by
  have hfield : AList.lookup "headers" (fieldsOf opts) = some (.object (mapHeaders hs)) := by
    rw [lookup_fieldsOf]; simp [hH]
  refine ⟨?_, mapHeaders_lookup hs, ?_⟩
  · rcases mapOpts_ok_cases opts mp h with ⟨_, rfl⟩ | ⟨_, bts, rfl⟩
    · exact hfield
    · rw [AList.lookup_insert_ne (by decide)]
      exact hfield
  · intro k
    rw [← AList.lookup_isSome, ← AList.lookup_isSome, mapHeaders_lookup]
    cases AList.lookup k hs <;> simp

/-- C3, as amended.  For a body source that does not fail, `mapOpts` returns an
argument map whose `"body"` entry holds the full contents of the source.  A
reader other than a `*bytes.Buffer` is read to completion exactly once: every
chunk is handed out, one further `Read` reports the end, and no `Read` follows
it.  A `*bytes.Buffer` is not read: its unread bytes are taken with `Bytes()`
and the buffer is left as it was. -/
theorem mapOpts_body_contents (opts : Opts) (body : Body)
    (hB : opts.Body = some body) (hok : body.succeeds) :
    (∃ mp, (mapOpts opts).result = .ok mp ∧
      mp.lookup "body" = some (.uint8Array body.contents)) ∧
    (∀ r, body = .reader r →
      (mapOpts opts).body = some (.reader r.drained) ∧
      r.drained.chunks = [] ∧ r.drained.reads = r.reads + r.chunks.length + 1 ∧
      r.drained.ended = r.ended + 1 ∧
      Body.readToCompletionOnce body (.reader r.drained)) ∧
    (∀ v, body = .buffer v → (mapOpts opts).body = some (.buffer v)) := by
  cases body with
  | buffer v =>
    rw [mapOpts_buffer opts v hB]
    refine ⟨⟨_, rfl, by simp [Body.contents]⟩, ?_, ?_⟩
    · intro r hr
      cases hr
    · intro v1 hv
      cases hv
      rfl
  | reader r =>
    have hf : r.failure = none := hok
    rw [mapOpts_reader_ok opts r hB hf]
    refine ⟨⟨_, rfl, by simp [Body.contents]⟩, ?_, ?_⟩
    · intro r1 hr
      cases hr
      exact ⟨rfl, rfl, rfl, rfl, rfl, rfl⟩
    · intro v hv
      cases hv

/-- C4. When the body source fails while being read, `Fetch` returns that error
with a nil response and has made no host call at all. -/
theorem Fetch_body_read_error (host : Host) (url : String) (opts : Opts) (r : Reader)
    (e : Error) (hB : opts.Body = some (.reader r)) (hf : r.failure = some e) :
    (Fetch host url opts).ret = some (none, some e) ∧ (Fetch host url opts).trace = [] := by
  simp [Fetch, mapOpts_reader_error opts r e hB hf]

theorem mapOpts_trace_cases (opts : Opts) :
    (mapOpts opts).trace = [] ∨
    ∃ bts, (mapOpts opts).trace = [.newUint8Array bts.length, .copyBytesToJS bts] := by
  cases hB : opts.Body with
  | none => rw [mapOpts_no_body opts hB]; exact Or.inl rfl
  | some body =>
    cases body with
    | buffer v => rw [mapOpts_buffer opts v hB]; exact Or.inr ⟨_, rfl⟩
    | reader r =>
      cases hf : r.failure with
      | none => rw [mapOpts_reader_ok opts r hB hf]; exact Or.inr ⟨_, rfl⟩
      | some e => rw [mapOpts_reader_error opts r e hB hf]; exact Or.inl rfl

theorem mapOpts_error_trace (opts : Opts) (err : Error)
    (hm : (mapOpts opts).result = .error err) : (mapOpts opts).trace = [] := by
  cases hB : opts.Body with
  | none => rw [mapOpts_no_body opts hB]
  | some body =>
    cases body with
    | buffer v => rw [mapOpts_buffer opts v hB] at hm; simp at hm
    | reader r =>
      cases hf : r.failure with
      | none => rw [mapOpts_reader_ok opts r hB hf] at hm; simp at hm
      | some e => rw [mapOpts_reader_error opts r e hB hf]

/-- C5. When the option mapping succeeds (so that the host `fetch` is called)
and the host rejects the fetch promise, `Fetch` returns a nil response and an
error whose message is the `message` field of the rejection value, and the
`arrayBuffer` method of a response is never called. -/
theorem Fetch_metadata_rejected (host : Host) (url : String) (opts : Opts) (mp : GoMap Arg)
    (message : String) (hm : (mapOpts opts).result = .ok mp)
    (h1 : host.fetch = .rejected message) :
    (Fetch host url opts).ret = some (none, some ⟨message⟩) ∧
    HostCall.arrayBuffer ∉ (Fetch host url opts).trace := by
  rcases mapOpts_trace_cases opts with ht | ⟨bts, ht⟩ <;>
  cases hS : opts.Signal with
  | none => simp [Fetch, hm, h1, hS, ht, failure, errorsNew, signalFires]
  | some c => cases c <;> simp [Fetch, hm, h1, hS, ht, failure, errorsNew, signalFires]

/-- C6. When the option mapping succeeds, the host fulfills the fetch promise
and then rejects the promise returned by `arrayBuffer`, `Fetch` returns a nil
response (the response built from the metadata is dropped) and an error whose
message is the `message` field of the body-phase rejection value. -/
theorem Fetch_body_rejected (host : Host) (url : String) (opts : Opts) (mp : GoMap Arg)
    (resp : HostResponse) (message : String) (hm : (mapOpts opts).result = .ok mp)
    (h1 : host.fetch = .fulfilled resp) (h2 : resp.arrayBuffer = .rejected message) :
    (Fetch host url opts).ret = some (none, some ⟨message⟩) := by
  simp [Fetch, hm, h1, h2, success, failureBody, errorsNew]

/-- C7. `Fetch` returns unless a promise it waits for never settles, and whenever
it returns exactly one of the two results is non-nil: a response with a nil
error, or an error with a nil response. -/
theorem Fetch_exactly_one_result (host : Host) (url : String) (opts : Opts) :
    ((Fetch host url opts).ret = none →
      host.fetch = .pending ∨
      ∃ resp, host.fetch = .fulfilled resp ∧ resp.arrayBuffer = .pending) ∧
    (∀ response err, (Fetch host url opts).ret = some (response, err) →
      (response ≠ none ∧ err = none) ∨ (response = none ∧ err ≠ none)) := by
  cases hm : (mapOpts opts).result with
  | error e => simp [Fetch, hm]
  | ok mp =>
    cases h1 : host.fetch with
    | pending => simp [Fetch, hm, h1]
    | rejected message =>
      simp [Fetch, hm, h1, failure, errorsNew]
    | fulfilled resp =>
      cases h2 : resp.arrayBuffer with
      | pending => simp [Fetch, hm, h1, h2, success]
      | rejected message =>
        simp [Fetch, hm, h1, h2, success, failureBody, errorsNew]
      | fulfilled buffer =>
        simp [Fetch, hm, h1, h2, success, successBody]

theorem Fetch_handles_shape (host : Host) (url : String) (opts : Opts)
    (res : Option Response × Option Error) (hret : (Fetch host url opts).ret = some res) :
    released (Fetch host url opts).trace = (registered (Fetch host url opts).trace).reverse ∧
    (((∃ err, (mapOpts opts).result = .error err) ∧
        registered (Fetch host url opts).trace = []) ∨
      ((∃ mp message, (mapOpts opts).result = .ok mp ∧ host.fetch = .rejected message) ∧
        registered (Fetch host url opts).trace = [.success, .failure]) ∨
      ((∃ mp resp, (mapOpts opts).result = .ok mp ∧ host.fetch = .fulfilled resp) ∧
        registered (Fetch host url opts).trace =
          [.success, .failure, .successBody, .failureBody])) := by
  cases hm : (mapOpts opts).result with
  | error e =>
    have ht := mapOpts_error_trace opts e hm
    simp [Fetch, hm, ht, registered, released]
  | ok mp =>
    cases h1 : host.fetch with
    | pending => simp [Fetch, hm, h1] at hret
    | rejected message =>
      rcases mapOpts_trace_cases opts with ht | ⟨bts, ht⟩ <;>
      cases hS : opts.Signal with
      | none =>
        simp [Fetch, hm, h1, hS, ht, failure, errorsNew, signalFires, registered, released]
      | some c =>
        cases c <;>
        simp [Fetch, hm, h1, hS, ht, failure, errorsNew, signalFires, registered, released]
    | fulfilled resp =>
      cases h2 : resp.arrayBuffer with
      | pending => simp [Fetch, hm, h1, h2, success] at hret
      | rejected message =>
        rcases mapOpts_trace_cases opts with ht | ⟨bts, ht⟩ <;>
        cases hS : opts.Signal with
        | none =>
          simp [Fetch, hm, h1, h2, hS, ht, success, failureBody, errorsNew, signalFires,
            registered, released]
        | some c =>
          cases c <;>
          simp [Fetch, hm, h1, h2, hS, ht, success, failureBody, errorsNew, signalFires,
            registered, released]
      | fulfilled buffer =>
        rcases mapOpts_trace_cases opts with ht | ⟨bts, ht⟩ <;>
        cases hS : opts.Signal with
        | none =>
          simp [Fetch, hm, h1, h2, hS, ht, success, successBody, signalFires,
            registered, released]
        | some c =>
          cases c <;>
          simp [Fetch, hm, h1, h2, hS, ht, success, successBody, signalFires,
            registered, released]

/-- C1, at `postOpts`. -/
theorem mapOpts_only_set_fields_witness :
    (mapOpts postOpts).result = .ok postArgs ∧
    postArgs.lookup "method" = some (.str "POST") ∧
    postArgs.lookup "mode" = none ∧
    postArgs.lookup "keepalive" = some (.bool false) ∧
    ("headers" ∈ postArgs ↔ postOpts.Headers ≠ none) ∧
    ("body" ∈ postArgs ↔ postOpts.Body ≠ none) :=
  have h := mapOpts_only_set_fields postOpts postArgs rfl
  ⟨rfl, h.1, h.2.1, h.2.2.2.2.2.2.2.2.2.1, h.2.2.2.2.2.2.2.2.1, h.2.2.2.2.2.2.2.2.2.2.1⟩

/-- C2, at `postOpts`, whose headers are `{"X-Token": "abc"}`. -/
theorem mapOpts_headers_exact_witness :
    postOpts.Headers = some ((∅ : GoMap String).insert "X-Token" "abc") ∧
    (mapOpts postOpts).result = .ok postArgs ∧
    postArgs.lookup "headers" =
      some (.object (mapHeaders ((∅ : GoMap String).insert "X-Token" "abc"))) ∧
    (∀ k, (mapHeaders ((∅ : GoMap String).insert "X-Token" "abc")).lookup k =
      (((∅ : GoMap String).insert "X-Token" "abc").lookup k).map Prim.str) :=
  have h := mapOpts_headers_exact postOpts ((∅ : GoMap String).insert "X-Token" "abc")
    postArgs rfl rfl
  ⟨rfl, rfl, h.1, h.2.1⟩

/-- C3 as stated fails on a `*bytes.Buffer`.  For the descriptor whose body is
the buffer holding "hi", `mapOpts` passes "hi" to the host but does not read
the buffer: afterwards the buffer is unchanged and its two bytes are still
unread, so the source has not been read to completion. -/
theorem mapOpts_buffer_left_unread :
    postOpts.Body = some (.buffer hiBuffer) ∧ (Body.buffer hiBuffer).succeeds ∧
    (mapOpts postOpts).result = .ok postArgs ∧
    postArgs.lookup "body" = some (.uint8Array (Body.buffer hiBuffer).contents) ∧
    (mapOpts postOpts).body = some (.buffer hiBuffer) ∧
    hiBuffer.Len = 2 ∧
    ¬ (∃ after, (mapOpts postOpts).body = some after ∧
        Body.readToCompletionOnce (.buffer hiBuffer) after) := by
  refine ⟨rfl, trivial, rfl, rfl, rfl, rfl, ?_⟩
  rintro ⟨after, hafter, hdone⟩
  have h2 : (mapOpts postOpts).body = some (.buffer hiBuffer) := rfl
  rw [h2] at hafter
  cases hafter
  have h3 : hiBuffer.Len = 0 := hdone
  exact absurd h3 (by decide)

/-- C3 as amended, at the reader that hands out "h", "i" and then `io.EOF`. -/
theorem mapOpts_body_contents_witness :
    readerOpts.Body = some (.reader hiReader) ∧ (Body.reader hiReader).succeeds ∧
    (∃ mp, (mapOpts readerOpts).result = .ok mp ∧
      mp.lookup "body" = some (.uint8Array [104, 105])) ∧
    (mapOpts readerOpts).body =
      some (.reader { chunks := [], failure := none, reads := 3, ended := 1 }) :=
  have h := mapOpts_body_contents readerOpts (.reader hiReader) rfl rfl
  ⟨rfl, rfl, h.1, (h.2.1 hiReader rfl).1⟩

/-- C4, at the reader that fails after "h", whatever the host would do. -/
theorem Fetch_body_read_error_witness :
    brokenOpts.Body = some (.reader brokenReader) ∧
    brokenReader.failure = some ⟨"unexpected EOF"⟩ ∧
    (Fetch ⟨.fulfilled pingResp⟩ "/api/echo" brokenOpts).ret =
      some (none, some ⟨"unexpected EOF"⟩) ∧
    (Fetch ⟨.fulfilled pingResp⟩ "/api/echo" brokenOpts).trace = [] :=
  have h := Fetch_body_read_error ⟨.fulfilled pingResp⟩ "/api/echo" brokenOpts brokenReader
    ⟨"unexpected EOF"⟩ rfl rfl
  ⟨rfl, rfl, h.1, h.2⟩

/-- C5, at the scenario of a POST with body "hi" that the host rejects with
`NetworkError`. -/
theorem Fetch_metadata_rejected_witness :
    (mapOpts postOpts).result = .ok postArgs ∧
    (Fetch ⟨.rejected "NetworkError"⟩ "/api/echo" postOpts).ret =
      some (none, some ⟨"NetworkError"⟩) ∧
    HostCall.arrayBuffer ∉ (Fetch ⟨.rejected "NetworkError"⟩ "/api/echo" postOpts).trace :=
  have h := Fetch_metadata_rejected ⟨.rejected "NetworkError"⟩ "/api/echo" postOpts postArgs
    "NetworkError" rfl rfl
  ⟨rfl, h.1, h.2⟩

/-- C6, at a response whose body cannot be read. -/
theorem Fetch_body_rejected_witness :
    (mapOpts postOpts).result = .ok postArgs ∧
    brokenResp.arrayBuffer = .rejected "body stream already read" ∧
    (Fetch ⟨.fulfilled brokenResp⟩ "/api/echo" postOpts).ret =
      some (none, some ⟨"body stream already read"⟩) :=
  ⟨rfl, rfl, Fetch_body_rejected ⟨.fulfilled brokenResp⟩ "/api/echo" postOpts postArgs
    brokenResp "body stream already read" rfl rfl rfl⟩

/-- C7, at a host whose rejection message is the empty string: the error is
still non-nil and the response nil. -/
theorem Fetch_exactly_one_result_witness :
    (Fetch ⟨.rejected ""⟩ "/api/ping" getOpts).ret = some (none, some ⟨""⟩) ∧
    (((none : Option Response) ≠ none ∧ (some ⟨""⟩ : Option Error) = none) ∨
      ((none : Option Response) = none ∧ (some ⟨""⟩ : Option Error) ≠ none)) :=
  ⟨rfl, (Fetch_exactly_one_result ⟨.rejected ""⟩ "/api/ping" getOpts).2 none (some ⟨""⟩) rfl⟩

/-- C8, evaluated on the code.  With a signal that is not cancelled during the
call: when the host rejects the fetch promise, `failure` sends on `done`, the
goroutine has ended when `Fetch` returns and a later cancellation calls
nothing; when both phases succeed, or when the body phase fails, nothing is
sent on `done`, the goroutine is still waiting when `Fetch` returns and a later
cancellation calls `abort` on the controller. -/
theorem Fetch_late_cancel :
    (Fetch ⟨.rejected "NetworkError"⟩ "/api/ping" getWithSignal).watcher = .stopped ∧
    lateCancel (Fetch ⟨.rejected "NetworkError"⟩ "/api/ping" getWithSignal) = [] ∧
    (Fetch ⟨.fulfilled pingResp⟩ "/api/ping" getWithSignal).ret.isSome = true ∧
    (Fetch ⟨.fulfilled pingResp⟩ "/api/ping" getWithSignal).watcher = .waiting ∧
    (Fetch ⟨.fulfilled pingResp⟩ "/api/ping" getWithSignal).done = 0 ∧
    lateCancel (Fetch ⟨.fulfilled pingResp⟩ "/api/ping" getWithSignal) = [.abort] ∧
    (Fetch ⟨.fulfilled brokenResp⟩ "/api/ping" getWithSignal).ret =
      some (none, some ⟨"body stream already read"⟩) ∧
    lateCancel (Fetch ⟨.fulfilled brokenResp⟩ "/api/ping" getWithSignal) = [.abort] :=
  ⟨rfl, rfl, rfl, rfl, rfl, rfl, rfl, rfl⟩

/-- C9. For a descriptor with no body and no signal and a host that fulfills both
promises, `Fetch` returns a response and a nil error; the fields `OK`,
`Redirected`, `Status`, `StatusText`, `Type`, `URL` and `BodyUsed` are the
host response's `ok`, `redirected`, `status`, `statusText`, `type`, `url` and
`bodyUsed`; `Headers` maps every key the `entries()` iterator yields to the
list of the values yielded with it, in iteration order, and holds no other key;
`Body` is the bytes of the host's array buffer. -/
theorem Fetch_success_response (host : Host) (url : String) (opts : Opts)
    (resp : HostResponse) (buffer : List Byte)
    (hB : opts.Body = none) (hS : opts.Signal = none)
    (h1 : host.fetch = .fulfilled resp) (h2 : resp.arrayBuffer = .fulfilled buffer) :
    ∃ r : Response, (Fetch host url opts).ret = some (some r, none) ∧
      r.OK = resp.ok ∧ r.Redirected = resp.redirected ∧ r.Status = resp.status ∧
      r.StatusText = resp.statusText ∧ r.Type_ = resp.type ∧ r.URL = resp.url ∧
      r.BodyUsed = resp.bodyUsed ∧
      (∀ k, r.Headers.lookup k =
        if valuesFor k resp.entries = [] then none else some (valuesFor k resp.entries)) ∧
      r.Body = buffer ∧ r.Body.length = buffer.length := by
  have hm := mapOpts_no_body opts hB
  refine ⟨{ Headers := resp.entries.foldl (fun h pair => h.Add pair.1 pair.2) ∅,
             OK := resp.ok, Redirected := resp.redirected, Status := resp.status,
             StatusText := resp.statusText, Type_ := resp.type, URL := resp.url,
             BodyUsed := resp.bodyUsed, Body := buffer }, ?_, rfl, rfl, rfl, rfl, rfl, rfl, rfl,
    foldl_Add_empty_lookup resp.entries, rfl, rfl⟩
  simp [Fetch, hm, hS, h1, h2, success, successBody, signalFires, CopyBytes_replicate]

/-- C9, at the ping scenario: status 200, `ok` true, the header
`content-type: text/plain` and the body "pong". -/
theorem Fetch_success_response_witness :
    getOpts.Body = none ∧ getOpts.Signal = none ∧
    pingResp.arrayBuffer = .fulfilled [112, 111, 110, 103] ∧
    ∃ r : Response, (Fetch ⟨.fulfilled pingResp⟩ "/api/ping" getOpts).ret = some (some r, none) ∧
      r.OK = true ∧ r.Redirected = false ∧ r.Status = 200 ∧
      r.StatusText = "OK" ∧ r.Type_ = "basic" ∧ r.URL = "/api/ping" ∧
      r.BodyUsed = false ∧
      (∀ k, r.Headers.lookup k =
        if valuesFor k [("content-type", "text/plain")] = [] then none
        else some (valuesFor k [("content-type", "text/plain")])) ∧
      r.Body = [112, 111, 110, 103] ∧ r.Body.length = 4 :=
  ⟨rfl, rfl, rfl, Fetch_success_response ⟨.fulfilled pingResp⟩ "/api/ping" getOpts pingResp
    [112, 111, 110, 103] rfl rfl rfl rfl⟩

/-- C10. When `Fetch` returns, every callback handle registered during the call
has been released exactly once and no other handle has been released: each
handle is registered at most once and released as often as it was registered.
After a body-read failure no handle was registered; after a rejection of the
fetch promise the registered handles are `success` and `failure` only. -/
theorem Fetch_handles_released (host : Host) (url : String) (opts : Opts)
    (res : Option Response × Option Error) (hret : (Fetch host url opts).ret = some res) :
    (∀ h : Handle,
      (released (Fetch host url opts).trace).count h =
        (registered (Fetch host url opts).trace).count h ∧
      (registered (Fetch host url opts).trace).count h ≤ 1) ∧
    (∀ err, (mapOpts opts).result = .error err →
      registered (Fetch host url opts).trace = []) ∧
    (∀ mp message, (mapOpts opts).result = .ok mp → host.fetch = .rejected message →
      registered (Fetch host url opts).trace = [.success, .failure]) := by
  obtain ⟨hrev, hshape⟩ := Fetch_handles_shape host url opts res hret
  refine ⟨?_, ?_, ?_⟩
  · intro h
    rw [hrev, List.count_reverse]
    refine ⟨rfl, ?_⟩
    rcases hshape with ⟨_, hr⟩ | ⟨_, hr⟩ | ⟨_, hr⟩ <;> rw [hr] <;> cases h <;> decide
  · intro err herr
    rcases hshape with ⟨_, hr⟩ | ⟨⟨mp, m, hm, _⟩, _⟩ | ⟨⟨mp, m, hm, _⟩, _⟩
    · exact hr
    · rw [herr] at hm; cases hm
    · rw [herr] at hm; cases hm
  · intro mp message hm h1
    rcases hshape with ⟨⟨e, he⟩, _⟩ | ⟨_, hr⟩ | ⟨⟨mp1, resp, _, hf⟩, _⟩
    · rw [hm] at he; cases he
    · exact hr
    · rw [h1] at hf; cases hf

/-- C10, on the full-success path of the ping scenario: four handles registered,
the same four released. -/
theorem Fetch_handles_released_witness :
    (Fetch ⟨.fulfilled pingResp⟩ "/api/ping" getOpts).ret.isSome = true ∧
    registered (Fetch ⟨.fulfilled pingResp⟩ "/api/ping" getOpts).trace =
      [.success, .failure, .successBody, .failureBody] ∧
    (∀ h : Handle,
      (released (Fetch ⟨.fulfilled pingResp⟩ "/api/ping" getOpts).trace).count h =
        (registered (Fetch ⟨.fulfilled pingResp⟩ "/api/ping" getOpts).trace).count h ∧
      (registered (Fetch ⟨.fulfilled pingResp⟩ "/api/ping" getOpts).trace).count h ≤ 1) :=
  ⟨rfl, rfl, (Fetch_handles_released ⟨.fulfilled pingResp⟩ "/api/ping" getOpts
    ((Fetch ⟨.fulfilled pingResp⟩ "/api/ping" getOpts).ret.getD (none, none)) rfl).1⟩

end WasmFetch
